import Mathlib

/-!
# Secret registry of AuthTransformer (`app/secrets/registry.go`)

A shallow embedding of the secret resolution engine: the plugin registry, the
parsing of `prefix:identifier` references, the TTL cache and the random
selection among equivalent references.

Modelling conventions.

* Go strings are Lean `String`s.  The separator `":"` is one ASCII byte, and no
  multi-byte UTF-8 sequence contains that byte, so cutting at the first `':'`
  character is cutting at the first `":"` byte.
* `time.Time` is an integer count of nanoseconds measured from the zero value
  `time.Time{}`; `time.Duration` is an integer count of nanoseconds.
  `Time.Before` is `<` and `Time.Add` is `+` (no instant the program can read
  is near the end of the representable range).
* The package-level variables `registry`, `CacheTTL` and `secretCache.m` are
  the fields of `State`.  Go maps are total functions into `Option`.
* A plugin is a value with a fixed `Prefix` and a `Load` that acts on an
  external world `W` (so two calls may answer differently).  A plugin does not
  call back into the registry.  Every call of a plugin's `Load` is appended to
  the ghost field `calls`.
* Each `time.Now()` of the source is a parameter: `now₁` is the reading of the
  cache check, `now₂` the reading taken when the cache is filled.
* The pair `(string, error)` a Go function returns is `String × Option GoError`
  (`none` is `nil`).
-/

namespace secrets

/-! ## Values -/

/-- An `error` value: built by `fmt.Errorf` from a message, or by `fmt.Errorf`
with `%w` around another error. -/
inductive GoError where
  | errorf (msg : String) : GoError
  | wrap (msg : String) (err : GoError) : GoError
  deriving DecidableEq, Repr

/-- An instant `time.Time`, in nanoseconds from the zero value. -/
abbrev Time := Int

/-- A `time.Duration`, in nanoseconds. -/
abbrev Duration := Int

/-- The zero value `time.Time{}`. -/
def zeroTime : Time := 0

/-- The method `Time.Before`: `t.Before(u)` reports whether `t` is before `u`. -/
def Before (t u : Time) : Bool := decide (t < u)

/-- The method `Time.Add`. -/
def Add (t : Time) (d : Duration) : Time := t + d

/-- The interface `Plugin`: a prefix and a fallible `Load` of an identifier,
acting on the outside world `W`. -/
structure Plugin (Ctx W : Type) where
  Prefix : String
  Load : Ctx → String → W → (String × Option GoError) × W

/-- The struct `cachedSecret`. -/
structure cachedSecret where
  val : String
  expiry : Time
  deriving DecidableEq, Repr

/-- One invocation of a plugin's `Load`: which plugin, with which context and
identifier. -/
structure Call (Ctx W : Type) where
  plugin : Plugin Ctx W
  ctx : Ctx
  id : String

/-- The package state: the variables `registry`, `CacheTTL`, `secretCache.m`,
the world the plugins act on, and the log of `Load` invocations. -/
structure State (Ctx W : Type) where
  registry : String → Option (Plugin Ctx W)
  CacheTTL : Duration
  secretCache : String → Option cachedSecret
  world : W
  calls : List (Call Ctx W)

/-- The state at program start: empty registry, zero `CacheTTL`, empty cache. -/
def State.init {Ctx W : Type} (w : W) : State Ctx W :=
  { registry := fun _ => none
    CacheTTL := 0
    secretCache := fun _ => none
    world := w
    calls := [] }

/-! ## `strings.SplitN(s, ":", 2)` -/

/-- The position of the first `c` in `s` (`strings.Index`), if there is one. -/
def Index (c : Char) : List Char → Option Nat
  | [] => none
  | x :: xs => if x = c then some 0 else (Index c xs).map (· + 1)

/-- The call `strings.SplitN(s, ":", 2)`: `[s]` when `s` has no `":"`, else the
text before the first `":"` and the text after it. -/
def SplitN2 (s : String) : List String :=
  match Index ':' s.data with
  | none => [s]
  | some m => [String.mk (s.data.take m), String.mk (s.data.drop (m + 1))]

/-! ## Operations -/

variable {Ctx W : Type}

/-- The function `ClearCache`. -/
def ClearCache (s : State Ctx W) : State Ctx W :=
  { s with secretCache := fun _ => none }

/-- The function `Register`. -/
def Register (p : Plugin Ctx W) (s : State Ctx W) : State Ctx W :=
  { s with registry := Function.update s.registry p.Prefix (some p) }

/-- Assignment to the variable `CacheTTL`. -/
def SetCacheTTL (d : Duration) (s : State Ctx W) : State Ctx W :=
  { s with CacheTTL := d }

/-- The function `ValidateSecret`; `none` is the `nil` error. -/
def ValidateSecret (s : State Ctx W) (ref : String) : Option GoError :=
  match SplitN2 ref with
  | [pfx, _] =>
    match s.registry pfx with
    | none => some (.errorf ("unknown secret source: " ++ pfx))
    | some _ => none
  | _ => some (.errorf ("invalid secret reference: " ++ ref))

/-- The first block of `LoadSecret`: the value of a cache entry for `ref` that
the guard `CacheTTL <= 0 || time.Now().Before(c.expiry)` accepts. -/
def cacheHit (s : State Ctx W) (ref : String) (now₁ : Time) : Option String :=
  match s.secretCache ref with
  | some c => if decide (s.CacheTTL ≤ 0) || Before now₁ c.expiry then some c.val else none
  | none => none

/-- The function `LoadSecret`, with the two clock readings `now₁` (cache check)
and `now₂` (cache fill). -/
def LoadSecret (ctx : Ctx) (ref : String) (now₁ now₂ : Time) (s : State Ctx W) :
    (String × Option GoError) × State Ctx W :=
  match cacheHit s ref now₁ with
  | some v => ((v, none), s)
  | none =>
    match SplitN2 ref with
    | [pfx, id] =>
      match s.registry pfx with
      | none => (("", some (.errorf ("unknown secret source: " ++ pfx))), s)
      | some p =>
        let r := p.Load ctx id s.world
        let s₁ : State Ctx W := { s with world := r.2, calls := s.calls ++ [⟨p, ctx, id⟩] }
        match r.1.2 with
        | some err => (("", some err), s₁)
        | none =>
          let exp := if s.CacheTTL > 0 then Add now₂ s.CacheTTL else zeroTime
          ((r.1.1, none),
            { s₁ with secretCache := Function.update s.secretCache ref (some ⟨r.1.1, exp⟩) })
    | _ => (("", some (.errorf ("invalid secret reference: " ++ ref))), s)

/-- The conversion `int(nBig.Int64())` of a non-negative big integer: the low
64 bits read as a signed integer. -/
def toInt64 (n : Nat) : Int :=
  if n % 2 ^ 64 < 2 ^ 63 then (n % 2 ^ 64 : Nat) else (n % 2 ^ 64 : Nat) - 2 ^ 64

/-- The function `LoadRandomSecret`.  `rnd` is what `rand.Int(rand.Reader, len(refs))`
answers if it is called; the result `none` is the run-time panic of an index
out of range. -/
def LoadRandomSecret (ctx : Ctx) (refs : List String) (rnd : Except GoError Nat)
    (now₁ now₂ : Time) (s : State Ctx W) :
    Option ((String × Option GoError) × State Ctx W) :=
  if refs.length = 0 then
    some (("", some (.errorf "no secrets provided")), s)
  else
    let idx? : Except GoError Int :=
      if refs.length = 1 then .ok 0
      else
        match rnd with
        | .error err => .error (.wrap "rand: " err)
        | .ok n => .ok (toInt64 n)
    match idx? with
    | .error e => some (("", some e), s)
    | .ok idx =>
      if 0 ≤ idx then
        match refs[idx.toNat]? with
        | some ref => some (LoadSecret ctx ref now₁ now₂ s)
        | none => none
      else none

/-- The states the package can be in: from the state at program start, any
sequence of `Register`, assignments to `CacheTTL`, `ClearCache`, `LoadSecret`
and `LoadRandomSecret` calls that return, and changes of the outside world.
(`ValidateSecret` changes nothing, so it adds no state.) -/
inductive Reachable : State Ctx W → Prop where
  | init (w : W) : Reachable (State.init w)
  | register (p : Plugin Ctx W) {s : State Ctx W} :
      Reachable s → Reachable (Register p s)
  | setCacheTTL (d : Duration) {s : State Ctx W} :
      Reachable s → Reachable (SetCacheTTL d s)
  | clearCache {s : State Ctx W} : Reachable s → Reachable (ClearCache s)
  | loadSecret (ctx : Ctx) (ref : String) (now₁ now₂ : Time) {s : State Ctx W} :
      Reachable s → Reachable (LoadSecret ctx ref now₁ now₂ s).2
  | loadRandomSecret (ctx : Ctx) (refs : List String) (rnd : Except GoError Nat)
      (now₁ now₂ : Time) {s : State Ctx W} (r : (String × Option GoError) × State Ctx W) :
      Reachable s → LoadRandomSecret ctx refs rnd now₁ now₂ s = some r → Reachable r.2
  | world (w : W) {s : State Ctx W} : Reachable s → Reachable { s with world := w }

/-- A run of successive `LoadSecret(ref)` calls, each with its context and its
two clock readings: the results in order and the final state. -/
def LoadSecretRun (ref : String) :
    List (Ctx × Time × Time) → State Ctx W → List (String × Option GoError) × State Ctx W
  | [], s => ([], s)
  | c :: rest, s =>
    let r := LoadSecret c.1 ref c.2.1 c.2.2 s
    let rs := LoadSecretRun ref rest r.2
    (r.1 :: rs.1, rs.2)

/-! ## Invariants of the reachable states -/

/-- Every key of the cache is a reference `ValidateSecret` accepts. -/
def CacheValid (s : State Ctx W) : Prop :=
  ∀ k c, s.secretCache k = some c → ValidateSecret s k = none

/-- Every plugin is bound under the prefix it reports. -/
def RegistryKeyed (s : State Ctx W) : Prop :=
  ∀ q p, s.registry q = some p → p.Prefix = q

/-- Every cached value is the value of a successful `Load` of the key's
identifier by a plugin that reports the key's prefix and that was invoked with
that identifier. -/
def CacheProvenance (s : State Ctx W) : Prop :=
  ∀ k c, s.secretCache k = some c →
    ∃ pfx id p ctx w, SplitN2 k = [pfx, id] ∧ p.Prefix = pfx ∧
      (⟨p, ctx, id⟩ : Call Ctx W) ∈ s.calls ∧ (p.Load ctx id w).1 = (c.val, none)

/-! ## Sample backends used to evaluate the operations -/

/-- A backend under the prefix `env` whose answer changes after its first call
(the world counts the calls). -/
def envPlugin : Plugin Unit Nat :=
  { Prefix := "env"
    Load := fun _ _ w => ((if w = 0 then "v0" else "v1", none), w + 1) }

/-- A backend under the prefix `vault` that always fails. -/
def vaultPlugin : Plugin Unit Nat :=
  { Prefix := "vault"
    Load := fun _ _ w => (("ignored", some (.errorf "vault sealed")), w + 1) }

/-- A backend registered under the empty prefix. -/
def anonPlugin : Plugin Unit Nat :=
  { Prefix := ""
    Load := fun _ id w => ((id, none), w + 1) }

/-- A second backend under the prefix `env`, answering differently from
`envPlugin`. -/
def envPlugin2 : Plugin Unit Nat :=
  { Prefix := "env"
    Load := fun _ _ w => (("other", none), w + 1) }

/-- A backend whose prefix itself contains the separator. -/
def colonPlugin : Plugin Unit Nat :=
  { Prefix := "a:b"
    Load := fun _ id w => ((id, none), w + 1) }

/-- The start state with `envPlugin` and `vaultPlugin` registered. -/
def sampleState : State Unit Nat :=
  Register vaultPlugin (Register envPlugin (State.init 0))

/-! ## Splitting a reference -/

theorem Index_eq_none {c : Char} {l : List Char} (h : c ∉ l) : Index c l = none := by
  induction l with
  | nil => rfl
  | cons x xs ih =>
    have hx : x ≠ c := fun e => h (by simp [e])
    have hxs : c ∉ xs := fun e => h (by simp [e])
    simp [Index, hx, ih hxs]

theorem Index_append {c : Char} {a : List Char} (b : List Char) (h : c ∉ a) :
    Index c (a ++ c :: b) = some a.length := by
  induction a with
  | nil => simp [Index]
  | cons x xs ih =>
    have hx : x ≠ c := fun e => h (by simp [e])
    have hxs : c ∉ xs := fun e => h (by simp [e])
    simp [Index, hx, ih hxs]

theorem Index_some_mem {c : Char} {l : List Char} {m : Nat} (h : Index c l = some m) :
    c ∈ l := by
  by_contra hc
  rw [Index_eq_none hc] at h
  cases h

theorem exists_first {c : Char} {l : List Char} (h : c ∈ l) :
    ∃ a b, c ∉ a ∧ l = a ++ c :: b := by
  induction l with
  | nil => cases h
  | cons x xs ih =>
    by_cases hx : x = c
    · exact ⟨[], xs, by simp, by simp [hx]⟩
    · have hxs : c ∈ xs := by
        rcases List.mem_cons.mp h with e | e
        · exact absurd e.symm hx
        · exact e
      obtain ⟨a, b, ha, hab⟩ := ih hxs
      refine ⟨x :: a, b, ?_, by simp [hab]⟩
      intro hm
      rcases List.mem_cons.mp hm with e | e
      · exact hx e.symm
      · exact ha e

theorem SplitN2_of_not_mem {s : String} (h : ':' ∉ s.data) : SplitN2 s = [s] := by
  simp [SplitN2, Index_eq_none h]

theorem SplitN2_append {p : String} (rest : String) (h : ':' ∉ p.data) :
    SplitN2 (p ++ ":" ++ rest) = [p, rest] := by
  have hd : (p ++ ":" ++ rest).data = p.data ++ ':' :: rest.data := by
    simp [String.data_append]
  have ht : (p.data ++ ':' :: rest.data).take p.data.length = p.data := by simp
  have hr : (p.data ++ ':' :: rest.data).drop (p.data.length + 1) = rest.data := by
    rw [← List.drop_drop]
    simp
  simp only [SplitN2, hd, Index_append rest.data h, ht, hr]

theorem SplitN2_cases (s : String) :
    (':' ∉ s.data ∧ SplitN2 s = [s]) ∨
      ∃ p rest : String, ':' ∉ p.data ∧ s = p ++ ":" ++ rest ∧ SplitN2 s = [p, rest] := by
  by_cases h : ':' ∈ s.data
  · right
    obtain ⟨a, b, ha, hab⟩ := exists_first h
    have hs : s = String.mk a ++ ":" ++ String.mk b := by
      apply String.ext
      simp [String.data_append, hab]
    exact ⟨String.mk a, String.mk b, ha, hs, hs ▸ SplitN2_append (String.mk b) ha⟩
  · exact Or.inl ⟨h, SplitN2_of_not_mem h⟩

/-! ## The branches of `ValidateSecret` and `LoadSecret` -/

theorem ValidateSecret_of_split {s : State Ctx W} {ref pfx id : String}
    (hs : SplitN2 ref = [pfx, id]) :
    ValidateSecret s ref =
      match s.registry pfx with
      | none => some (.errorf ("unknown secret source: " ++ pfx))
      | some _ => none := by
  simp only [ValidateSecret, hs]

theorem ValidateSecret_of_single {s : State Ctx W} {ref : String}
    (hs : SplitN2 ref = [ref]) :
    ValidateSecret s ref = some (.errorf ("invalid secret reference: " ++ ref)) := by
  simp only [ValidateSecret, hs]

theorem cacheHit_of_none {s : State Ctx W} {ref : String} (now₁ : Time)
    (h : s.secretCache ref = none) : cacheHit s ref now₁ = none := by
  simp only [cacheHit, h]

theorem cacheHit_some_entry {s : State Ctx W} {ref v : String} {now₁ : Time}
    (h : cacheHit s ref now₁ = some v) :
    ∃ c, s.secretCache ref = some c ∧ c.val = v := by
  unfold cacheHit at h
  cases hc : s.secretCache ref with
  | none => simp [hc] at h
  | some c =>
    simp only [hc] at h
    split at h
    · exact ⟨c, rfl, Option.some.inj h⟩
    · cases h

theorem LoadSecret_hit {s : State Ctx W} {ref v : String} {now₁ : Time} (ctx : Ctx)
    (now₂ : Time) (h : cacheHit s ref now₁ = some v) :
    LoadSecret ctx ref now₁ now₂ s = ((v, none), s) := by
  simp only [LoadSecret, h]

theorem LoadSecret_invalid {s : State Ctx W} {ref : String} {now₁ : Time} (ctx : Ctx)
    (now₂ : Time) (h : cacheHit s ref now₁ = none) (hs : SplitN2 ref = [ref]) :
    LoadSecret ctx ref now₁ now₂ s =
      (("", some (.errorf ("invalid secret reference: " ++ ref))), s) := by
  simp only [LoadSecret, h, hs]

theorem LoadSecret_unknown {s : State Ctx W} {ref pfx id : String} {now₁ : Time} (ctx : Ctx)
    (now₂ : Time) (h : cacheHit s ref now₁ = none) (hs : SplitN2 ref = [pfx, id])
    (hr : s.registry pfx = none) :
    LoadSecret ctx ref now₁ now₂ s =
      (("", some (.errorf ("unknown secret source: " ++ pfx))), s) := by
  simp only [LoadSecret, h, hs, hr]

theorem LoadSecret_fail {s : State Ctx W} {ref pfx id : String} {now₁ : Time} {ctx : Ctx}
    {p : Plugin Ctx W} {e : GoError} (now₂ : Time)
    (h : cacheHit s ref now₁ = none) (hs : SplitN2 ref = [pfx, id])
    (hr : s.registry pfx = some p) (hl : (p.Load ctx id s.world).1.2 = some e) :
    LoadSecret ctx ref now₁ now₂ s =
      (("", some e),
        { s with world := (p.Load ctx id s.world).2, calls := s.calls ++ [⟨p, ctx, id⟩] }) := by
  simp only [LoadSecret, h, hs, hr, hl]

theorem LoadSecret_fill {s : State Ctx W} {ref pfx id : String} {now₁ : Time} {ctx : Ctx}
    {p : Plugin Ctx W} (now₂ : Time)
    (h : cacheHit s ref now₁ = none) (hs : SplitN2 ref = [pfx, id])
    (hr : s.registry pfx = some p) (hl : (p.Load ctx id s.world).1.2 = none) :
    LoadSecret ctx ref now₁ now₂ s =
      (((p.Load ctx id s.world).1.1, none),
        { s with
          world := (p.Load ctx id s.world).2
          calls := s.calls ++ [⟨p, ctx, id⟩]
          secretCache := Function.update s.secretCache ref
            (some ⟨(p.Load ctx id s.world).1.1,
              if s.CacheTTL > 0 then Add now₂ s.CacheTTL else zeroTime⟩) }) := by
  simp only [LoadSecret, h, hs, hr, hl]

/-- `LoadSecret` never writes the registry or `CacheTTL`. -/
theorem LoadSecret_frame (ctx : Ctx) (ref : String) (now₁ now₂ : Time) (s : State Ctx W) :
    (LoadSecret ctx ref now₁ now₂ s).2.registry = s.registry ∧
      (LoadSecret ctx ref now₁ now₂ s).2.CacheTTL = s.CacheTTL := by
  unfold LoadSecret
  split
  · exact ⟨rfl, rfl⟩
  · split
    · split
      · exact ⟨rfl, rfl⟩
      · dsimp only
        split <;> exact ⟨rfl, rfl⟩
    · exact ⟨rfl, rfl⟩

/-- A cache entry present after `LoadSecret` was there before, or is the entry
of `ref`, which `ValidateSecret` accepts. -/
theorem LoadSecret_cache (ctx : Ctx) (ref : String) (now₁ now₂ : Time) (s : State Ctx W)
    (k : String) (c : cachedSecret)
    (hk : (LoadSecret ctx ref now₁ now₂ s).2.secretCache k = some c) :
    s.secretCache k = some c ∨ (k = ref ∧ ValidateSecret s ref = none) := by
  unfold LoadSecret at hk
  split at hk
  · exact Or.inl hk
  · split at hk
    · rename_i pfx id hs
      split at hk
      · exact Or.inl hk
      · rename_i p hr
        dsimp only at hk
        split at hk
        · exact Or.inl hk
        · by_cases hkr : k = ref
          · right
            refine ⟨hkr, ?_⟩
            rw [ValidateSecret_of_split hs, hr]
          · left
            simpa [Function.update, hkr] using hk
    · exact Or.inl hk

/-- A `LoadRandomSecret` call that returns either returned an error and left
the state alone, or is a `LoadSecret` of one of the references. -/
theorem LoadRandomSecret_cases {ctx : Ctx} {refs : List String} {rnd : Except GoError Nat}
    {now₁ now₂ : Time} {s : State Ctx W} {r : (String × Option GoError) × State Ctx W}
    (h : LoadRandomSecret ctx refs rnd now₁ now₂ s = some r) :
    r.2 = s ∨ ∃ ref ∈ refs, r = LoadSecret ctx ref now₁ now₂ s := by
  unfold LoadRandomSecret at h
  split at h
  · left
    cases h
    rfl
  · dsimp only at h
    split at h
    · left
      cases h
      rfl
    · rename_i idx _
      split at h
      · split at h
        · rename_i ref hg
          right
          cases h
          exact ⟨ref, List.getElem?_mem hg, rfl⟩
        · cases h
      · cases h

/-! ## The cache invariant -/

theorem ValidateSecret_Register {s : State Ctx W} {ref : String} (p : Plugin Ctx W)
    (h : ValidateSecret s ref = none) : ValidateSecret (Register p s) ref = none := by
  rcases SplitN2_cases ref with ⟨_, hs⟩ | ⟨pfx, id, _, _, hs⟩
  · rw [ValidateSecret_of_single hs] at h
    cases h
  · rw [ValidateSecret_of_split hs] at h
    rw [ValidateSecret_of_split hs]
    by_cases hp : pfx = p.Prefix
    · simp [Register, Function.update, hp]
    · cases hr : s.registry pfx with
      | none => simp [hr] at h
      | some q => simp [Register, Function.update, hp, hr]

theorem ValidateSecret_congr {s t : State Ctx W} (ref : String) (h : t.registry = s.registry) :
    ValidateSecret t ref = ValidateSecret s ref := by
  simp only [ValidateSecret, h]

theorem CacheValid_LoadSecret {s : State Ctx W} (ctx : Ctx) (ref : String) (now₁ now₂ : Time)
    (h : CacheValid s) : CacheValid (LoadSecret ctx ref now₁ now₂ s).2 := by
  intro k c hk
  rw [ValidateSecret_congr k (LoadSecret_frame ctx ref now₁ now₂ s).1]
  rcases LoadSecret_cache ctx ref now₁ now₂ s k c hk with h1 | ⟨h1, h2⟩
  · exact h k c h1
  · rw [h1]
    exact h2

theorem Reachable.cacheValid {s : State Ctx W} (h : Reachable s) : CacheValid s := by
  induction h with
  | init w =>
    intro k c hk
    cases hk
  | register p _ ih =>
    intro k c hk
    exact ValidateSecret_Register p (ih k c hk)
  | setCacheTTL d _ ih =>
    intro k c hk
    exact ih k c hk
  | clearCache _ ih =>
    intro k c hk
    cases hk
  | loadSecret ctx ref now₁ now₂ _ ih => exact CacheValid_LoadSecret ctx ref now₁ now₂ ih
  | loadRandomSecret ctx refs rnd now₁ now₂ r _ hr ih =>
    rcases LoadRandomSecret_cases hr with h1 | ⟨ref, _, h1⟩
    · rw [h1]
      exact ih
    · rw [h1]
      exact CacheValid_LoadSecret ctx ref now₁ now₂ ih
  | world w _ ih =>
    intro k c hk
    exact ih k c hk

/-! ## Validation -/

/-- C1: `ValidateSecret` is decided by the reference text and the set of
registered prefixes.  A reference without `':'` fails with
`invalid secret reference: <ref>`; a reference `p:rest` (`p` the text before
the first `':'`) fails with `unknown secret source: <p>` when nothing is
registered under `p` and returns nil otherwise; every reference is of one of
these two shapes; and two states with the same registered prefixes (whatever
the plugins and the rest of the state are) give the same answer, so no `Load`
is consulted. -/
theorem ValidateSecret_decided (s : State Ctx W) (ref : String) :
    (':' ∉ ref.data →
        ValidateSecret s ref = some (.errorf ("invalid secret reference: " ++ ref))) ∧
    (∀ p rest : String, ':' ∉ p.data → ref = p ++ ":" ++ rest → s.registry p = none →
        ValidateSecret s ref = some (.errorf ("unknown secret source: " ++ p))) ∧
    (∀ p rest : String, ':' ∉ p.data → ref = p ++ ":" ++ rest → (s.registry p).isSome →
        ValidateSecret s ref = none) ∧
    (':' ∉ ref.data ∨ ∃ p rest : String, ':' ∉ p.data ∧ ref = p ++ ":" ++ rest) ∧
    (∀ t : State Ctx W, (∀ p, (t.registry p).isSome = (s.registry p).isSome) →
        ValidateSecret t ref = ValidateSecret s ref) := by
  refine ⟨?_, ?_, ?_, ?_, ?_⟩
  · intro h
    exact ValidateSecret_of_single (SplitN2_of_not_mem h)
  · intro p rest hp hr hn
    rw [hr, ValidateSecret_of_split (SplitN2_append rest hp), hn]
  · intro p rest hp hr hn
    rw [hr, ValidateSecret_of_split (SplitN2_append rest hp)]
    cases hq : s.registry p with
    | none => simp [hq] at hn
    | some q => rfl
  · rcases SplitN2_cases ref with ⟨h, _⟩ | ⟨p, rest, hp, hr, _⟩
    · exact Or.inl h
    · exact Or.inr ⟨p, rest, hp, hr⟩
  · intro t ht
    rcases SplitN2_cases ref with ⟨_, hs⟩ | ⟨p, rest, _, _, hs⟩
    · rw [ValidateSecret_of_single hs, ValidateSecret_of_single hs]
    · rw [ValidateSecret_of_split hs, ValidateSecret_of_split hs]
      have hp := ht p
      cases h1 : t.registry p <;> cases h2 : s.registry p <;> simp [h1, h2] at hp ⊢

/-- C1 at the references `nocolon`, `aws:key` and `env:a` in `sampleState`. -/
theorem ValidateSecret_decided_witness :
    ValidateSecret sampleState "nocolon"
        = some (.errorf "invalid secret reference: nocolon") ∧
      ValidateSecret sampleState "aws:key" = some (.errorf "unknown secret source: aws") ∧
      ValidateSecret sampleState "env:a" = none :=
  ⟨(ValidateSecret_decided sampleState "nocolon").1 (by decide),
    (ValidateSecret_decided sampleState "aws:key").2.1 "aws" "key" (by decide) rfl rfl,
    (ValidateSecret_decided sampleState "env:a").2.2.1 "env" "a" (by decide) rfl rfl⟩

/-- C2, refuted: with a plugin registered under `env` the reference `env:`
(empty identifier) passes `ValidateSecret`, and `LoadSecret` invokes the plugin
with the empty identifier and returns its value; with a plugin registered under
the empty prefix the reference `:id` passes `ValidateSecret` as well. -/
theorem empty_part_accepted :
    ValidateSecret sampleState "env:" = none ∧
      (LoadSecret () "env:" 100 100 sampleState).1 = ("v0", none) ∧
      (LoadSecret () "env:" 100 100 sampleState).2.calls.map Call.id = [""] ∧
      ValidateSecret (Register anonPlugin (State.init 0)) ":id" = none ∧
      (LoadSecret () ":id" 100 100 (Register anonPlugin (State.init 0))).1 = ("id", none) := by
  refine ⟨by decide, by decide, by decide, by decide, by decide⟩

/-- C2, amended: emptiness of the prefix or of the identifier is not checked.
For a reference `p:rest` with `p` or `rest` empty and no live cache entry: if
nothing is registered under `p`, `ValidateSecret` and `LoadSecret` both fail
with `unknown secret source: <p>` and no plugin is invoked; if a plugin is
registered under `p`, `ValidateSecret` returns nil and `LoadSecret` invokes that
plugin once with identifier `rest`. -/
theorem empty_part_by_registry (s : State Ctx W) (p rest : String) (hp : ':' ∉ p.data)
    (_he : p = "" ∨ rest = "") (ctx : Ctx) (now₁ now₂ : Time)
    (hc : cacheHit s (p ++ ":" ++ rest) now₁ = none) :
    (s.registry p = none →
        ValidateSecret s (p ++ ":" ++ rest)
            = some (.errorf ("unknown secret source: " ++ p)) ∧
          LoadSecret ctx (p ++ ":" ++ rest) now₁ now₂ s
            = (("", some (.errorf ("unknown secret source: " ++ p))), s)) ∧
      (∀ pl, s.registry p = some pl →
        ValidateSecret s (p ++ ":" ++ rest) = none ∧
          (LoadSecret ctx (p ++ ":" ++ rest) now₁ now₂ s).2.calls
            = s.calls ++ [⟨pl, ctx, rest⟩]) := by
  have hs := SplitN2_append rest hp
  constructor
  · intro hn
    exact ⟨by rw [ValidateSecret_of_split hs, hn], LoadSecret_unknown ctx now₂ hc hs hn⟩
  · intro pl hr
    refine ⟨by rw [ValidateSecret_of_split hs, hr], ?_⟩
    cases hl : (pl.Load ctx rest s.world).1.2 with
    | none => rw [LoadSecret_fill now₂ hc hs hr hl]
    | some e => rw [LoadSecret_fail now₂ hc hs hr hl]

/-- C2, amended, in `sampleState`: at `aws:` (prefix not registered) and at
`env:` (prefix registered, empty identifier). -/
theorem empty_part_by_registry_witness :
    (ValidateSecret sampleState ("aws" ++ ":" ++ "")
        = some (.errorf ("unknown secret source: " ++ "aws")) ∧
      LoadSecret () ("aws" ++ ":" ++ "") 100 100 sampleState
        = (("", some (.errorf ("unknown secret source: " ++ "aws"))), sampleState)) ∧
      (ValidateSecret sampleState ("env" ++ ":" ++ "") = none ∧
        (LoadSecret () ("env" ++ ":" ++ "") 100 100 sampleState).2.calls
          = sampleState.calls ++ [⟨envPlugin, (), ""⟩]) :=
  ⟨(empty_part_by_registry sampleState "aws" "" (by decide) (Or.inr rfl) () 100 100 rfl).1 rfl,
    (empty_part_by_registry sampleState "env" "" (by decide) (Or.inr rfl) () 100 100 rfl).2
      envPlugin rfl⟩

/-! ## The cache -/

/-- C3: cache idempotence.  With `CacheTTL = d` fixed, if a `LoadSecret(ref)`
finds no live entry and the plugin's `Load` succeeds with `v` (the entry being
filled at clock reading `t1`), then a next `LoadSecret(ref)` at `t2`, with
`d ≤ 0` or `t2 < t1 + d`, returns `v` from the cache: both calls return `v`, the
second changes nothing, and the plugin was invoked exactly once over the two
calls. -/
theorem cache_idempotence (s : State Ctx W) (ctx₁ ctx₂ : Ctx) (ref pfx id v : String)
    (p : Plugin Ctx W) (t1c t1 t2 t2f : Time)
    (hd : s.CacheTTL ≤ 0 ∨ t2 < t1 + s.CacheTTL)
    (hcold : cacheHit s ref t1c = none)
    (hs : SplitN2 ref = [pfx, id]) (hr : s.registry pfx = some p)
    (hl : (p.Load ctx₁ id s.world).1 = (v, none)) :
    (LoadSecret ctx₁ ref t1c t1 s).1 = (v, none) ∧
      (LoadSecret ctx₂ ref t2 t2f (LoadSecret ctx₁ ref t1c t1 s).2).1 = (v, none) ∧
      (LoadSecret ctx₂ ref t2 t2f (LoadSecret ctx₁ ref t1c t1 s).2).2
        = (LoadSecret ctx₁ ref t1c t1 s).2 ∧
      (LoadSecret ctx₂ ref t2 t2f (LoadSecret ctx₁ ref t1c t1 s).2).2.calls
        = s.calls ++ [⟨p, ctx₁, id⟩] := by
  have hl2 : (p.Load ctx₁ id s.world).1.2 = none := by rw [hl]
  have hl1 : (p.Load ctx₁ id s.world).1.1 = v := by rw [hl]
  have h1 := LoadSecret_fill t1 hcold hs hr hl2
  rw [hl1] at h1
  have hhit : cacheHit (LoadSecret ctx₁ ref t1c t1 s).2 ref t2 = some v := by
    rw [h1]
    simp only [cacheHit, Function.update_same]
    rcases hd with hd | hd
    · simp [hd]
    · by_cases h0 : s.CacheTTL ≤ 0
      · simp [h0]
      · have hpos : s.CacheTTL > 0 := not_le.mp h0
        simp [hpos, Before, Add, hd]
  have h2 := LoadSecret_hit ctx₂ t2f hhit
  refine ⟨by rw [h1], by rw [h2], by rw [h2], ?_⟩
  rw [h2, h1]

/-- C3 at `env:a` with `CacheTTL = 0`, the second call issued much later. -/
theorem cache_idempotence_witness :
    (LoadSecret () "env:a" 100 100 sampleState).1 = ("v0", none) ∧
      (LoadSecret () "env:a" 99999 99999 (LoadSecret () "env:a" 100 100 sampleState).2).1
        = ("v0", none) ∧
      (LoadSecret () "env:a" 99999 99999 (LoadSecret () "env:a" 100 100 sampleState).2).2
        = (LoadSecret () "env:a" 100 100 sampleState).2 ∧
      (LoadSecret () "env:a" 99999 99999
          (LoadSecret () "env:a" 100 100 sampleState).2).2.calls
        = sampleState.calls ++ [⟨envPlugin, (), "a"⟩] :=
  cache_idempotence sampleState () () "env:a" "env" "a" "v0" envPlugin 100 100 99999 99999
    (Or.inl (by decide)) rfl rfl rfl rfl

/-- C4, refuted: the new expiry is not counted from the time the call was
issued.  Under `CacheTTL = 5`, `env:a` is filled at `100`; the next `LoadSecret`
is issued at `105` (its cache check reads `105 ≥ 100 + 5`) and the plugin's
`Load` has returned by `107`, the reading taken at the fill: the entry stored
has expiry `112`, not `105 + 5`. -/
theorem ttl_expiry_counts_from_fill :
    (LoadSecret () "env:a" 105 107
        (LoadSecret () "env:a" 100 100 (SetCacheTTL 5 sampleState)).2).2.secretCache "env:a"
        = some ⟨"v1", 112⟩ ∧
      (LoadSecret () "env:a" 105 107
        (LoadSecret () "env:a" 100 100 (SetCacheTTL 5 sampleState)).2).2.secretCache "env:a"
        ≠ some ⟨"v1", 105 + 5⟩ := by
  refine ⟨by decide, by decide⟩

/-- C4, amended: TTL expiry.  With `CacheTTL = d > 0`, after a `LoadSecret(ref)`
that filled the entry at clock reading `t0`, a `LoadSecret(ref)` whose cache
check reads `t ≥ t0 + d` (boundary included) invokes the plugin's `Load` again
and returns that call's result; on success the entry becomes the new value with
expiry `t' + d`, where `t'` is the clock reading taken at the fill, after `Load`
has returned (not the reading `t` of the cache check). -/
theorem ttl_expiry (s : State Ctx W) (ctx₀ ctx : Ctx) (ref pfx id v₀ : String)
    (p : Plugin Ctx W) (t0c t0 t t' : Time)
    (hd : 0 < s.CacheTTL)
    (hcold : cacheHit s ref t0c = none)
    (hs : SplitN2 ref = [pfx, id]) (hr : s.registry pfx = some p)
    (hl : (p.Load ctx₀ id s.world).1 = (v₀, none))
    (ht : t0 + s.CacheTTL ≤ t) :
    (LoadSecret ctx₀ ref t0c t0 s).2.secretCache ref = some ⟨v₀, t0 + s.CacheTTL⟩ ∧
      (LoadSecret ctx ref t t' (LoadSecret ctx₀ ref t0c t0 s).2).2.calls
        = (LoadSecret ctx₀ ref t0c t0 s).2.calls ++ [⟨p, ctx, id⟩] ∧
      (∀ e, (p.Load ctx id (LoadSecret ctx₀ ref t0c t0 s).2.world).1.2 = some e →
        (LoadSecret ctx ref t t' (LoadSecret ctx₀ ref t0c t0 s).2).1 = ("", some e)) ∧
      ((p.Load ctx id (LoadSecret ctx₀ ref t0c t0 s).2.world).1.2 = none →
        (LoadSecret ctx ref t t' (LoadSecret ctx₀ ref t0c t0 s).2).1
            = ((p.Load ctx id (LoadSecret ctx₀ ref t0c t0 s).2.world).1.1, none) ∧
          (LoadSecret ctx ref t t' (LoadSecret ctx₀ ref t0c t0 s).2).2.secretCache ref
            = some ⟨(p.Load ctx id (LoadSecret ctx₀ ref t0c t0 s).2.world).1.1,
                t' + s.CacheTTL⟩) := by
  have hl2 : (p.Load ctx₀ id s.world).1.2 = none := by rw [hl]
  have hl1 : (p.Load ctx₀ id s.world).1.1 = v₀ := by rw [hl]
  have h1 := LoadSecret_fill t0 hcold hs hr hl2
  rw [hl1] at h1
  have hnd : ¬ s.CacheTTL ≤ 0 := not_le.mpr hd
  have hgt : s.CacheTTL > 0 := hd
  have hr1 : (LoadSecret ctx₀ ref t0c t0 s).2.registry pfx = some p := by
    rw [(LoadSecret_frame ctx₀ ref t0c t0 s).1, hr]
  have httl : (LoadSecret ctx₀ ref t0c t0 s).2.CacheTTL = s.CacheTTL :=
    (LoadSecret_frame ctx₀ ref t0c t0 s).2
  have hentry : (LoadSecret ctx₀ ref t0c t0 s).2.secretCache ref
      = some ⟨v₀, t0 + s.CacheTTL⟩ := by
    rw [h1]
    simp [hgt, Add]
  have hmiss : cacheHit (LoadSecret ctx₀ ref t0c t0 s).2 ref t = none := by
    simp only [cacheHit, hentry, httl]
    have hnb : ¬ t < t0 + s.CacheTTL := not_lt.mpr ht
    simp [hnd, Before, hnb]
  refine ⟨hentry, ?_, ?_, ?_⟩
  · cases hl' : (p.Load ctx id (LoadSecret ctx₀ ref t0c t0 s).2.world).1.2 with
    | none => rw [LoadSecret_fill t' hmiss hs hr1 hl']
    | some e => rw [LoadSecret_fail t' hmiss hs hr1 hl']
  · intro e hl'
    rw [LoadSecret_fail t' hmiss hs hr1 hl']
  · intro hl'
    rw [LoadSecret_fill t' hmiss hs hr1 hl']
    refine ⟨rfl, ?_⟩
    simp [httl, hgt, Add]

/-- C4, amended, at `env:a` with `CacheTTL = 5`, filled at `100` and loaded
again with cache check at the boundary `105` and fill at `108`: the plugin
answers anew and the entry gets expiry `113`. -/
theorem ttl_expiry_witness :
    (LoadSecret () "env:a" 100 100 (SetCacheTTL 5 sampleState)).2.secretCache "env:a"
        = some ⟨"v0", 105⟩ ∧
      (LoadSecret () "env:a" 105 108
          (LoadSecret () "env:a" 100 100 (SetCacheTTL 5 sampleState)).2).1 = ("v1", none) ∧
      (LoadSecret () "env:a" 105 108
          (LoadSecret () "env:a" 100 100 (SetCacheTTL 5 sampleState)).2).2.secretCache "env:a"
        = some ⟨"v1", 113⟩ :=
  have h := ttl_expiry (SetCacheTTL 5 sampleState) () () "env:a" "env" "a" "v0" envPlugin
    100 100 105 108 (by decide) rfl rfl rfl rfl (by decide)
  ⟨h.1, (h.2.2.2 rfl).1, (h.2.2.2 rfl).2⟩

/-- C5, refuted: `env:a` is loaded at `100` while `CacheTTL = 0`, so its entry
has the zero expiry; `CacheTTL` is then raised to `5`; the `LoadSecret` at `200`
does not answer `v0` from the cache but invokes the plugin a second time and
returns its new value `v1`. -/
theorem zero_expiry_reloaded :
    (LoadSecret () "env:a" 100 100 sampleState).2.secretCache "env:a"
        = some ⟨"v0", zeroTime⟩ ∧
      (LoadSecret () "env:a" 200 200
          (SetCacheTTL 5 (LoadSecret () "env:a" 100 100 sampleState).2)).1 = ("v1", none) ∧
      (LoadSecret () "env:a" 200 200
          (SetCacheTTL 5 (LoadSecret () "env:a" 100 100 sampleState).2)).2.calls.map Call.id
        = ["a", "a"] := by
  refine ⟨by decide, by decide, by decide⟩

/-- C5, amended: an entry stored with the zero expiry is served from the cache
exactly while `CacheTTL` is not positive.  With `CacheTTL ≤ 0`, `LoadSecret` of
its reference returns the cached value at every time, invokes no plugin and
changes nothing; with `CacheTTL > 0`, at every time not before the zero
timestamp the entry is not served from the cache. -/
theorem zero_expiry_served (s : State Ctx W) (ref v : String) (ctx : Ctx) (now₁ now₂ : Time)
    (hc : s.secretCache ref = some ⟨v, zeroTime⟩) :
    (s.CacheTTL ≤ 0 → LoadSecret ctx ref now₁ now₂ s = ((v, none), s)) ∧
      (0 < s.CacheTTL → zeroTime ≤ now₁ → cacheHit s ref now₁ = none) := by
  constructor
  · intro hd
    apply LoadSecret_hit
    simp [cacheHit, hc, hd]
  · intro hd hn
    have hnd : ¬ s.CacheTTL ≤ 0 := not_le.mpr hd
    have hnb : ¬ now₁ < zeroTime := not_lt.mpr hn
    simp [cacheHit, hc, hnd, Before, hnb]

/-- C5, amended, at the entry of `env:a` stored under `CacheTTL = 0`: served
while `CacheTTL = 0`, not served once `CacheTTL = 5`. -/
theorem zero_expiry_served_witness :
    LoadSecret () "env:a" 99999 99999 (LoadSecret () "env:a" 100 100 sampleState).2
        = (("v0", none), (LoadSecret () "env:a" 100 100 sampleState).2) ∧
      cacheHit (SetCacheTTL 5 (LoadSecret () "env:a" 100 100 sampleState).2) "env:a" 200
        = none :=
  ⟨(zero_expiry_served (LoadSecret () "env:a" 100 100 sampleState).2 "env:a" "v0" ()
      99999 99999 rfl).1 (by decide),
    (zero_expiry_served (SetCacheTTL 5 (LoadSecret () "env:a" 100 100 sampleState).2)
      "env:a" "v0" () 200 200 rfl).2 (by decide) (by decide)⟩

/-- C6, refuted: `env:a` is loaded at `100` under `CacheTTL = 5`, so its entry
has expiry `105`; `CacheTTL` is then reset to `0`; the `LoadSecret` at `200`,
past the expiry, returns the cached `v0`, invokes no plugin and changes
nothing. -/
theorem expired_entry_served :
    (LoadSecret () "env:a" 100 100 (SetCacheTTL 5 sampleState)).2.secretCache "env:a"
        = some ⟨"v0", 105⟩ ∧
      (LoadSecret () "env:a" 200 200
          (SetCacheTTL 0 (LoadSecret () "env:a" 100 100 (SetCacheTTL 5 sampleState)).2)).1
        = ("v0", none) ∧
      (LoadSecret () "env:a" 200 200
          (SetCacheTTL 0
            (LoadSecret () "env:a" 100 100 (SetCacheTTL 5 sampleState)).2)).2.calls.map Call.id
        = ["a"] := by
  refine ⟨by decide, by decide, by decide⟩

/-- C6, amended: while `CacheTTL` is positive, an entry of a reachable state
with non-zero expiry `e` is not served at any time `now ≥ e`: `LoadSecret` of
its reference finds no live entry, invokes the plugin registered under the
reference's prefix with its identifier, and returns what that call returns.
With `CacheTTL ≤ 0`, in every state, every present entry is served whatever its
expiry and whatever the time: `LoadSecret` returns its value, invokes no plugin
and changes nothing. -/
theorem expired_entry_reloaded (s : State Ctx W) (hR : Reachable s) (ref : String)
    (c : cachedSecret) (hc : s.secretCache ref = some c) (_hz : c.expiry ≠ zeroTime)
    (hd : 0 < s.CacheTTL) (ctx : Ctx) (now₁ now₂ : Time) (he : c.expiry ≤ now₁) :
    (cacheHit s ref now₁ = none ∧
      ∃ pfx id p, SplitN2 ref = [pfx, id] ∧ s.registry pfx = some p ∧
        (LoadSecret ctx ref now₁ now₂ s).2.calls = s.calls ++ [⟨p, ctx, id⟩] ∧
        (LoadSecret ctx ref now₁ now₂ s).1
          = match (p.Load ctx id s.world).1.2 with
            | some e => ("", some e)
            | none => ((p.Load ctx id s.world).1.1, none)) ∧
      (∀ (s' : State Ctx W) (ctx' : Ctx) (ref' : String) (c' : cachedSecret) (t t' : Time),
        s'.secretCache ref' = some c' → s'.CacheTTL ≤ 0 →
        LoadSecret ctx' ref' t t' s' = ((c'.val, none), s')) := by
  refine ⟨?_, ?_⟩
  case refine_2 =>
    intro s' ctx' ref' c' t t' hc' hd'
    apply LoadSecret_hit
    simp [cacheHit, hc', hd']
  have hmiss : cacheHit s ref now₁ = none := by
    have hnd : ¬ s.CacheTTL ≤ 0 := not_le.mpr hd
    have hnb : ¬ now₁ < c.expiry := not_lt.mpr he
    simp [cacheHit, hc, hnd, Before, hnb]
  refine ⟨hmiss, ?_⟩
  have hv := hR.cacheValid ref c hc
  rcases SplitN2_cases ref with ⟨_, hs⟩ | ⟨pfx, id, _, _, hs⟩
  · rw [ValidateSecret_of_single hs] at hv
    cases hv
  · rw [ValidateSecret_of_split hs] at hv
    cases hr : s.registry pfx with
    | none => simp [hr] at hv
    | some p =>
      refine ⟨pfx, id, p, hs, hr, ?_⟩
      cases hl : (p.Load ctx id s.world).1.2 with
      | none => rw [LoadSecret_fill now₂ hmiss hs hr hl]; exact ⟨rfl, rfl⟩
      | some e => rw [LoadSecret_fail now₂ hmiss hs hr hl]; exact ⟨rfl, rfl⟩

/-- C6, amended, at the entry of `env:a` stored with expiry `105`: reloaded at
time `105` while `CacheTTL = 5`, served at time `200` once `CacheTTL = 0`. -/
theorem expired_entry_reloaded_witness :
    (cacheHit (LoadSecret () "env:a" 100 100 (SetCacheTTL 5 sampleState)).2 "env:a" 105
        = none ∧
      ∃ pfx id p, SplitN2 "env:a" = [pfx, id] ∧
        (LoadSecret () "env:a" 100 100 (SetCacheTTL 5 sampleState)).2.registry pfx = some p ∧
        (LoadSecret () "env:a" 105 105
            (LoadSecret () "env:a" 100 100 (SetCacheTTL 5 sampleState)).2).2.calls
          = (LoadSecret () "env:a" 100 100 (SetCacheTTL 5 sampleState)).2.calls
              ++ [⟨p, (), id⟩] ∧
        (LoadSecret () "env:a" 105 105
            (LoadSecret () "env:a" 100 100 (SetCacheTTL 5 sampleState)).2).1
          = match (p.Load () id
                (LoadSecret () "env:a" 100 100 (SetCacheTTL 5 sampleState)).2.world).1.2 with
            | some e => ("", some e)
            | none =>
              ((p.Load () id
                (LoadSecret () "env:a" 100 100 (SetCacheTTL 5 sampleState)).2.world).1.1, none)) ∧
      LoadSecret () "env:a" 200 200
          (SetCacheTTL 0 (LoadSecret () "env:a" 100 100 (SetCacheTTL 5 sampleState)).2)
        = (("v0", none),
            SetCacheTTL 0 (LoadSecret () "env:a" 100 100 (SetCacheTTL 5 sampleState)).2) :=
  have h := expired_entry_reloaded
    (LoadSecret () "env:a" 100 100 (SetCacheTTL 5 sampleState)).2
    (Reachable.loadSecret () "env:a" 100 100
      (Reachable.setCacheTTL 5
        (Reachable.register vaultPlugin (Reachable.register envPlugin (Reachable.init 0)))))
    "env:a" ⟨"v0", 105⟩ rfl (by decide) (by decide) () 105 105 (by decide)
  ⟨h.1,
    h.2 (SetCacheTTL 0 (LoadSecret () "env:a" 100 100 (SetCacheTTL 5 sampleState)).2) ()
      "env:a" ⟨"v0", 105⟩ 200 200 rfl (by decide)⟩

/-! ## Failures -/

/-- C7: `LoadSecret` fails fast like `ValidateSecret`.  In every reachable
state and at every time, if `ValidateSecret(ref)` fails with `e` then
`LoadSecret(ref)` returns the empty value with the same error `e` and leaves the
whole state as it was: no plugin is invoked and the cache is unchanged. -/
theorem LoadSecret_fails_fast (s : State Ctx W) (hR : Reachable s) (ctx : Ctx) (ref : String)
    (now₁ now₂ : Time) (e : GoError) (hv : ValidateSecret s ref = some e) :
    LoadSecret ctx ref now₁ now₂ s = (("", some e), s) := by
  have hmiss : cacheHit s ref now₁ = none := by
    cases hh : cacheHit s ref now₁ with
    | none => rfl
    | some v =>
      obtain ⟨c, hc, _⟩ := cacheHit_some_entry hh
      have := hR.cacheValid ref c hc
      rw [hv] at this
      cases this
  rcases SplitN2_cases ref with ⟨_, hs⟩ | ⟨pfx, id, _, _, hs⟩
  · rw [ValidateSecret_of_single hs] at hv
    rw [LoadSecret_invalid ctx now₂ hmiss hs, Option.some.inj hv]
  · rw [ValidateSecret_of_split hs] at hv
    cases hr : s.registry pfx with
    | none =>
      simp only [hr] at hv
      rw [LoadSecret_unknown ctx now₂ hmiss hs hr, Option.some.inj hv]
    | some p => simp [hr] at hv

/-- C7 at `aws:key` after `env:a` was cached. -/
theorem LoadSecret_fails_fast_witness :
    LoadSecret () "aws:key" 200 200 (LoadSecret () "env:a" 100 100 sampleState).2
      = (("", some (.errorf "unknown secret source: aws")),
          (LoadSecret () "env:a" 100 100 sampleState).2) :=
  LoadSecret_fails_fast (LoadSecret () "env:a" 100 100 sampleState).2
    (Reachable.loadSecret () "env:a" 100 100
      (Reachable.register vaultPlugin (Reachable.register envPlugin (Reachable.init 0))))
    () "aws:key" 200 200 (.errorf "unknown secret source: aws") rfl

/-- C8: a plugin failure is propagated verbatim, is not cached and is not
retried.  For a reference with a registered prefix and no live cache entry, if
the plugin's `Load` fails with `e`, then `LoadSecret` returns the empty value
with exactly `e`, `Load` was invoked exactly once, and the cache (a stale entry
of `ref` included), the registry and `CacheTTL` are unchanged. -/
theorem plugin_failure_propagated (s : State Ctx W) (ctx : Ctx) (ref pfx id : String)
    (p : Plugin Ctx W) (now₁ now₂ : Time) (e : GoError)
    (hcold : cacheHit s ref now₁ = none)
    (hs : SplitN2 ref = [pfx, id]) (hr : s.registry pfx = some p)
    (hl : (p.Load ctx id s.world).1.2 = some e) :
    (LoadSecret ctx ref now₁ now₂ s).1 = ("", some e) ∧
      (LoadSecret ctx ref now₁ now₂ s).2.calls = s.calls ++ [⟨p, ctx, id⟩] ∧
      (LoadSecret ctx ref now₁ now₂ s).2.secretCache = s.secretCache ∧
      (LoadSecret ctx ref now₁ now₂ s).2.registry = s.registry ∧
      (LoadSecret ctx ref now₁ now₂ s).2.CacheTTL = s.CacheTTL := by
  rw [LoadSecret_fail now₂ hcold hs hr hl]
  exact ⟨rfl, rfl, rfl, rfl, rfl⟩

/-- C8 at `vault:k`, whose backend fails. -/
theorem plugin_failure_propagated_witness :
    (LoadSecret () "vault:k" 100 100 sampleState).1
        = ("", some (.errorf "vault sealed")) ∧
      (LoadSecret () "vault:k" 100 100 sampleState).2.calls
        = sampleState.calls ++ [⟨vaultPlugin, (), "k"⟩] ∧
      (LoadSecret () "vault:k" 100 100 sampleState).2.secretCache = sampleState.secretCache ∧
      (LoadSecret () "vault:k" 100 100 sampleState).2.registry = sampleState.registry ∧
      (LoadSecret () "vault:k" 100 100 sampleState).2.CacheTTL = sampleState.CacheTTL :=
  plugin_failure_propagated sampleState () "vault:k" "vault" "k" vaultPlugin 100 100
    (.errorf "vault sealed") rfl rfl rfl rfl

/-! ## Resolution -/

/-- C9: cache fill on success.  For a reference with no live cache entry whose
plugin `Load` succeeds with `v`, `LoadSecret` returns `v`; the cache then maps
`ref` to `(v, now₂ + CacheTTL)` when `CacheTTL > 0` and to `(v, zero time)` when
`CacheTTL ≤ 0`; every other cache entry and the registry are unchanged. -/
theorem cache_fill (s : State Ctx W) (ctx : Ctx) (ref pfx id v : String)
    (p : Plugin Ctx W) (now₁ now₂ : Time)
    (hcold : cacheHit s ref now₁ = none)
    (hs : SplitN2 ref = [pfx, id]) (hr : s.registry pfx = some p)
    (hl : (p.Load ctx id s.world).1 = (v, none)) :
    (LoadSecret ctx ref now₁ now₂ s).1 = (v, none) ∧
      (0 < s.CacheTTL →
        (LoadSecret ctx ref now₁ now₂ s).2.secretCache ref
          = some ⟨v, now₂ + s.CacheTTL⟩) ∧
      (s.CacheTTL ≤ 0 →
        (LoadSecret ctx ref now₁ now₂ s).2.secretCache ref = some ⟨v, zeroTime⟩) ∧
      (∀ k, k ≠ ref →
        (LoadSecret ctx ref now₁ now₂ s).2.secretCache k = s.secretCache k) ∧
      (LoadSecret ctx ref now₁ now₂ s).2.registry = s.registry := by
  have hl2 : (p.Load ctx id s.world).1.2 = none := by rw [hl]
  have hl1 : (p.Load ctx id s.world).1.1 = v := by rw [hl]
  rw [LoadSecret_fill now₂ hcold hs hr hl2, hl1]
  refine ⟨rfl, ?_, ?_, ?_, rfl⟩
  · intro hd
    have hgt : s.CacheTTL > 0 := hd
    simp [hgt, Add]
  · intro hd
    have hng : ¬ s.CacheTTL > 0 := not_lt.mpr hd
    simp [hng]
  · intro k hk
    simp [Function.update, hk]

/-- C9 at `env:a` with `CacheTTL = 5`, filled at `100`. -/
theorem cache_fill_witness :
    (LoadSecret () "env:a" 90 100 (SetCacheTTL 5 sampleState)).1 = ("v0", none) ∧
      (LoadSecret () "env:a" 90 100 (SetCacheTTL 5 sampleState)).2.secretCache "env:a"
        = some ⟨"v0", 105⟩ :=
  have h := cache_fill (SetCacheTTL 5 sampleState) () "env:a" "env" "a" "v0" envPlugin
    90 100 rfl rfl rfl rfl
  ⟨h.1, h.2.1 (by decide)⟩

/-- C10: a reference is split only at its first `':'`.  For `ref = p:rest` with
no `':'` in `p`, a plugin registered under `p` and no live cache entry,
`LoadSecret` invokes that plugin's `Load` once with identifier exactly `rest`,
whatever further `':'` it contains, and `ValidateSecret` accepts `ref`. -/
theorem split_on_first_colon (s : State Ctx W) (ctx : Ctx) (p rest : String)
    (pl : Plugin Ctx W) (now₁ now₂ : Time) (hp : ':' ∉ p.data)
    (hr : s.registry p = some pl)
    (hcold : cacheHit s (p ++ ":" ++ rest) now₁ = none) :
    (LoadSecret ctx (p ++ ":" ++ rest) now₁ now₂ s).2.calls = s.calls ++ [⟨pl, ctx, rest⟩] ∧
      (LoadSecret ctx (p ++ ":" ++ rest) now₁ now₂ s).2.world = (pl.Load ctx rest s.world).2 ∧
      ValidateSecret s (p ++ ":" ++ rest) = none := by
  have hs := SplitN2_append rest hp
  refine ⟨?_, ?_, by rw [ValidateSecret_of_split hs, hr]⟩
  · cases hl : (pl.Load ctx rest s.world).1.2 with
    | none => rw [LoadSecret_fill now₂ hcold hs hr hl]
    | some e => rw [LoadSecret_fail now₂ hcold hs hr hl]
  · cases hl : (pl.Load ctx rest s.world).1.2 with
    | none => rw [LoadSecret_fill now₂ hcold hs hr hl]
    | some e => rw [LoadSecret_fail now₂ hcold hs hr hl]

/-- C10 at `env:a:b`: the `env` plugin is asked for `a:b`. -/
theorem split_on_first_colon_witness :
    (LoadSecret () ("env" ++ ":" ++ "a:b") 100 100 sampleState).2.calls
        = sampleState.calls ++ [⟨envPlugin, (), "a:b"⟩] ∧
      (LoadSecret () ("env" ++ ":" ++ "a:b") 100 100 sampleState).2.world
        = (envPlugin.Load () "a:b" sampleState.world).2 ∧
      ValidateSecret sampleState ("env" ++ ":" ++ "a:b") = none :=
  split_on_first_colon sampleState () "env" "a:b" envPlugin 100 100 (by decide) rfl rfl

/-! ## Random selection -/

theorem toInt64_of_lt {n : Nat} (h : n < 2 ^ 63) : toInt64 n = (n : Int) := by
  have h64 : n % 2 ^ 64 = n := Nat.mod_eq_of_lt (by omega)
  unfold toInt64
  rw [h64, if_pos h]

/-- A draw `r` inside a list of at least two references selects element `r`. -/
theorem LoadRandomSecret_draw (ctx : Ctx) (refs : List String) (now₁ now₂ : Time)
    (s : State Ctx W) (hN : 2 ≤ refs.length) (hlen : refs.length < 2 ^ 63)
    (r : Nat) (hr : r < refs.length) :
    LoadRandomSecret ctx refs (.ok r) now₁ now₂ s
      = some (LoadSecret ctx (refs.get ⟨r, hr⟩) now₁ now₂ s) := by
  have h0 : ¬ refs.length = 0 := by omega
  have h1 : ¬ refs.length = 1 := by omega
  have hc : toInt64 r = (r : Int) := toInt64_of_lt (by omega)
  have hg : refs[r]? = some (refs.get ⟨r, hr⟩) := by
    rw [List.getElem?_eq_getElem hr]
    rfl
  simp [LoadRandomSecret, h0, h1, hc, hg]

/-- C11: `LoadRandomSecret` on the empty list returns the error
`no secrets provided` in every state, whatever the random source would answer
(it is not consulted), and returns the state as it was: no plugin is invoked and
the registry and the cache are unchanged. -/
theorem LoadRandomSecret_empty (ctx : Ctx) (rnd : Except GoError Nat) (now₁ now₂ : Time)
    (s : State Ctx W) :
    LoadRandomSecret ctx [] rnd now₁ now₂ s
      = some (("", some (.errorf "no secrets provided")), s) := by
  simp [LoadRandomSecret]

/-- C12: `LoadRandomSecret` on a one-element list is `LoadSecret` on that
element: same value or error and same resulting state, for every state, time
and reference, and for every answer of the random source, a failing one
included (no draw is made). -/
theorem LoadRandomSecret_single (ctx : Ctx) (ref : String) (rnd : Except GoError Nat)
    (now₁ now₂ : Time) (s : State Ctx W) :
    LoadRandomSecret ctx [ref] rnd now₁ now₂ s = some (LoadSecret ctx ref now₁ now₂ s) := by
  simp [LoadRandomSecret]

/-- C13: on a list of `N ≥ 2` references (a Go slice, so `N < 2^63`), a draw `r`
with `r < N` selects index `r`: the indexing does not panic and the result is
`LoadSecret` of `refs[r]`; and for every index `i < N` there is an answer of the
random source for which element `i` is the one resolved. -/
theorem LoadRandomSecret_in_bounds (ctx : Ctx) (refs : List String) (now₁ now₂ : Time)
    (s : State Ctx W) (hN : 2 ≤ refs.length) (hlen : refs.length < 2 ^ 63) :
    (∀ (r : Nat) (hr : r < refs.length),
        LoadRandomSecret ctx refs (.ok r) now₁ now₂ s
          = some (LoadSecret ctx (refs.get ⟨r, hr⟩) now₁ now₂ s)) ∧
      (∀ (i : Nat) (hi : i < refs.length), ∃ rnd,
        LoadRandomSecret ctx refs rnd now₁ now₂ s
          = some (LoadSecret ctx (refs.get ⟨i, hi⟩) now₁ now₂ s)) :=
  ⟨fun r hr => LoadRandomSecret_draw ctx refs now₁ now₂ s hN hlen r hr,
    fun i hi => ⟨.ok i, LoadRandomSecret_draw ctx refs now₁ now₂ s hN hlen i hi⟩⟩

/-- C13 at the list `env:a`, `vault:k`, `env:b` and the draw `2`. -/
theorem LoadRandomSecret_in_bounds_witness :
    LoadRandomSecret () ["env:a", "vault:k", "env:b"] (.ok 2) 100 100 sampleState
      = some (LoadSecret () "env:b" 100 100 sampleState) :=
  (LoadRandomSecret_in_bounds () ["env:a", "vault:k", "env:b"] 100 100 sampleState
    (by decide) (by decide)).1 2 (by decide)

/-! ## The registry and the cache as a whole -/

/-- C14, refuted: a plugin may report a prefix that contains `':'`.  After
`Register(colonPlugin)`, whose prefix is `a:b`, `ValidateSecret("a:b:id")` fails
with `unknown secret source: a`, and so does `LoadSecret`, which invokes no
plugin. -/
theorem Register_colon_prefix_rejected :
    ValidateSecret (Register colonPlugin (State.init 0)) ("a:b" ++ ":" ++ "id")
        = some (.errorf "unknown secret source: a") ∧
      (LoadSecret () ("a:b" ++ ":" ++ "id") 100 100 (Register colonPlugin (State.init 0))).1
        = ("", some (.errorf "unknown secret source: a")) ∧
      (LoadSecret () ("a:b" ++ ":" ++ "id") 100 100
          (Register colonPlugin (State.init 0))).2.calls.map Call.id = [] := by
  refine ⟨by decide, by decide, by decide⟩

/-- C14, amended: `Register` is last-writer-wins and never fails, for prefixes
without `':'`.  For plugins `p1`, `p2` reporting the same prefix, free of `':'`:
after `Register(p1)` then `Register(p2)` the prefix is bound to `p2`, and a
`LoadSecret` of `<prefix>:<id>` with no cache entry invokes exactly one `Load`,
that of `p2`; after `Register(p2)`, `ValidateSecret("<prefix>:<id>")` returns nil
for every `id`; and the binding of every other prefix is unchanged. -/
theorem Register_last_writer_wins (s : State Ctx W) (p1 p2 : Plugin Ctx W)
    (_hsame : p1.Prefix = p2.Prefix) (hp : ':' ∉ p2.Prefix.data)
    (ctx : Ctx) (id : String) (now₁ now₂ : Time)
    (hcold : s.secretCache (p2.Prefix ++ ":" ++ id) = none) :
    (Register p2 (Register p1 s)).registry p2.Prefix = some p2 ∧
      (LoadSecret ctx (p2.Prefix ++ ":" ++ id) now₁ now₂ (Register p2 (Register p1 s))).2.calls
        = s.calls ++ [⟨p2, ctx, id⟩] ∧
      (∀ id', ValidateSecret (Register p2 s) (p2.Prefix ++ ":" ++ id') = none) ∧
      (∀ q, q ≠ p2.Prefix → (Register p2 s).registry q = s.registry q) := by
  have hreg : (Register p2 (Register p1 s)).registry p2.Prefix = some p2 := by
    simp [Register]
  have hmiss : cacheHit (Register p2 (Register p1 s)) (p2.Prefix ++ ":" ++ id) now₁ = none :=
    cacheHit_of_none now₁ hcold
  have hs := SplitN2_append id hp
  refine ⟨hreg, ?_, ?_, ?_⟩
  · cases hl : (p2.Load ctx id (Register p2 (Register p1 s)).world).1.2 with
    | none => rw [LoadSecret_fill now₂ hmiss hs hreg hl]; rfl
    | some e => rw [LoadSecret_fail now₂ hmiss hs hreg hl]; rfl
  · intro id'
    rw [ValidateSecret_of_split (SplitN2_append id' hp)]
    simp [Register]
  · intro q hq
    simp [Register, Function.update, hq]

/-- C14, amended, at `envPlugin` then `envPlugin2`, both under `env`. -/
theorem Register_last_writer_wins_witness :
    (Register envPlugin2 (Register envPlugin (State.init 0))).registry envPlugin2.Prefix
        = some envPlugin2 ∧
      (LoadSecret () (envPlugin2.Prefix ++ ":" ++ "a") 100 100
          (Register envPlugin2 (Register envPlugin (State.init 0)))).2.calls
        = (State.init 0).calls ++ [⟨envPlugin2, (), "a"⟩] ∧
      (∀ id', ValidateSecret (Register envPlugin2 (State.init 0))
          (envPlugin2.Prefix ++ ":" ++ id') = none) ∧
      (∀ q, q ≠ envPlugin2.Prefix →
        (Register envPlugin2 (State.init 0)).registry q = (State.init 0).registry q) :=
  Register_last_writer_wins (State.init 0) envPlugin envPlugin2 rfl (by decide) () "a"
    100 100 rfl

/-- C15: `ClearCache` discards every cached entry and nothing else.  After it
the cache holds no entry for any reference, while the registry, `CacheTTL`, the
world and the call log are as before; `ValidateSecret` answers the same for
every reference; `ClearCache` twice is `ClearCache` once; and the next
`LoadSecret` of any reference with a registered prefix invokes its plugin,
whatever `CacheTTL` and the time are. -/
theorem ClearCache_discards_all (s : State Ctx W) :
    (∀ r, (ClearCache s).secretCache r = none) ∧
      (ClearCache s).registry = s.registry ∧
      (ClearCache s).CacheTTL = s.CacheTTL ∧
      (ClearCache s).world = s.world ∧
      (ClearCache s).calls = s.calls ∧
      (∀ ref, ValidateSecret (ClearCache s) ref = ValidateSecret s ref) ∧
      ClearCache (ClearCache s) = ClearCache s ∧
      (∀ (ctx : Ctx) (ref pfx id : String) (p : Plugin Ctx W) (now₁ now₂ : Time),
        SplitN2 ref = [pfx, id] → s.registry pfx = some p →
        (LoadSecret ctx ref now₁ now₂ (ClearCache s)).2.calls = s.calls ++ [⟨p, ctx, id⟩]) := by
  refine ⟨fun _ => rfl, rfl, rfl, rfl, rfl, fun ref => ValidateSecret_congr ref rfl, rfl, ?_⟩
  intro ctx ref pfx id p now₁ now₂ hs hr
  have hmiss : cacheHit (ClearCache s) ref now₁ = none := cacheHit_of_none now₁ rfl
  have hr' : (ClearCache s).registry pfx = some p := hr
  cases hl : (p.Load ctx id (ClearCache s).world).1.2 with
  | none => rw [LoadSecret_fill now₂ hmiss hs hr' hl]; rfl
  | some e => rw [LoadSecret_fail now₂ hmiss hs hr' hl]; rfl

/-- C15 after `env:a` was cached: once the cache is cleared the plugin is
invoked again. -/
theorem ClearCache_discards_all_witness :
    (LoadSecret () "env:a" 101 101
        (ClearCache (LoadSecret () "env:a" 100 100 sampleState).2)).2.calls
      = (LoadSecret () "env:a" 100 100 sampleState).2.calls ++ [⟨envPlugin, (), "a"⟩] :=
  (ClearCache_discards_all (LoadSecret () "env:a" 100 100 sampleState).2).2.2.2.2.2.2.2
    () "env:a" "env" "a" envPlugin 101 101 rfl rfl

/-- C18: `Register` does not invalidate the cache.  It leaves every cache
entry as it was, so when `ref` has a live entry holding `v`, after
`Register(p2)`, for any plugin `p2`, one with the prefix of `ref` included,
`LoadSecret(ref)` still returns `v` and changes nothing: no `Load` of `p2` is
invoked. -/
theorem Register_keeps_cache (s : State Ctx W) (p2 : Plugin Ctx W) (ctx : Ctx)
    (ref v : String) (now₁ now₂ : Time) (hlive : cacheHit s ref now₁ = some v) :
    (Register p2 s).secretCache = s.secretCache ∧
      LoadSecret ctx ref now₁ now₂ (Register p2 s) = ((v, none), Register p2 s) := by
  refine ⟨rfl, ?_⟩
  apply LoadSecret_hit
  exact hlive

/-- C18 at the entry of `env:a` obtained from `envPlugin`, after `envPlugin2`
was registered under the same prefix. -/
theorem Register_keeps_cache_witness :
    (Register envPlugin2 (LoadSecret () "env:a" 100 100 sampleState).2).secretCache
        = (LoadSecret () "env:a" 100 100 sampleState).2.secretCache ∧
      LoadSecret () "env:a" 200 200
          (Register envPlugin2 (LoadSecret () "env:a" 100 100 sampleState).2)
        = (("v0", none), Register envPlugin2 (LoadSecret () "env:a" 100 100 sampleState).2) :=
  Register_keeps_cache (LoadSecret () "env:a" 100 100 sampleState).2 envPlugin2 ()
    "env:a" "v0" 200 200 rfl

/-! ## Provenance of cached values -/

/-- What a `LoadSecret` call can do to the state: nothing, or one logged `Load`
of the plugin bound to the prefix of `ref`, after which the cache is as before
or, when that `Load` succeeded, holds its value under `ref`. -/
theorem LoadSecret_effect (ctx : Ctx) (ref : String) (now₁ now₂ : Time) (s : State Ctx W) :
    (LoadSecret ctx ref now₁ now₂ s).2 = s ∨
      ∃ pfx id p, SplitN2 ref = [pfx, id] ∧ s.registry pfx = some p ∧
        (LoadSecret ctx ref now₁ now₂ s).2.calls = s.calls ++ [⟨p, ctx, id⟩] ∧
        ((LoadSecret ctx ref now₁ now₂ s).2.secretCache = s.secretCache ∨
          ((p.Load ctx id s.world).1.2 = none ∧
            ∃ exp, (LoadSecret ctx ref now₁ now₂ s).2.secretCache
              = Function.update s.secretCache ref
                  (some ⟨(p.Load ctx id s.world).1.1, exp⟩))) := by
  cases hh : cacheHit s ref now₁ with
  | some v => left; rw [LoadSecret_hit ctx now₂ hh]
  | none =>
    rcases SplitN2_cases ref with ⟨_, hs⟩ | ⟨pfx, id, _, _, hs⟩
    · left; rw [LoadSecret_invalid ctx now₂ hh hs]
    · cases hr : s.registry pfx with
      | none => left; rw [LoadSecret_unknown ctx now₂ hh hs hr]
      | some p =>
        right
        refine ⟨pfx, id, p, hs, hr, ?_⟩
        cases hl : (p.Load ctx id s.world).1.2 with
        | some e =>
          rw [LoadSecret_fail now₂ hh hs hr hl]
          exact ⟨rfl, Or.inl rfl⟩
        | none =>
          rw [LoadSecret_fill now₂ hh hs hr hl]
          exact ⟨rfl, Or.inr ⟨rfl, _, rfl⟩⟩

theorem CacheProvenance_LoadSecret {s : State Ctx W} (ctx : Ctx) (ref : String)
    (now₁ now₂ : Time) (hk : RegistryKeyed s) (h : CacheProvenance s) :
    CacheProvenance (LoadSecret ctx ref now₁ now₂ s).2 := by
  rcases LoadSecret_effect ctx ref now₁ now₂ s with h0 | ⟨pfx, id, p, hs, hr, hcalls, hcache⟩
  · rw [h0]; exact h
  · intro k c hkc
    have hold : s.secretCache k = some c →
        ∃ pfx id p ctx' w, SplitN2 k = [pfx, id] ∧ p.Prefix = pfx ∧
          (⟨p, ctx', id⟩ : Call Ctx W) ∈ (LoadSecret ctx ref now₁ now₂ s).2.calls ∧
          (p.Load ctx' id w).1 = (c.val, none) := by
      intro hc
      obtain ⟨pfx', id', p', ctx', w, h1, h2, h3, h4⟩ := h k c hc
      refine ⟨pfx', id', p', ctx', w, h1, h2, ?_, h4⟩
      rw [hcalls]
      exact List.mem_append_left _ h3
    rcases hcache with hsame | ⟨hl, exp, hupd⟩
    · rw [hsame] at hkc
      exact hold hkc
    · rw [hupd] at hkc
      by_cases hkr : k = ref
      · subst hkr
        rw [Function.update_same] at hkc
        have hc : c = ⟨(p.Load ctx id s.world).1.1, exp⟩ := (Option.some.inj hkc).symm
        refine ⟨pfx, id, p, ctx, s.world, hs, hk pfx p hr, ?_, ?_⟩
        · rw [hcalls]
          exact List.mem_append_right _ (List.mem_singleton.mpr rfl)
        · rw [hc]
          exact Prod.ext rfl hl
      · rw [Function.update_noteq hkr] at hkc
        exact hold hkc

theorem Reachable.registryKeyed {s : State Ctx W} (h : Reachable s) : RegistryKeyed s := by
  induction h with
  | init w =>
    intro q p hq
    cases hq
  | register p _ ih =>
    intro q p' hq
    by_cases hqp : q = p.Prefix
    · subst hqp
      simp only [Register, Function.update_same] at hq
      rw [← Option.some.inj hq]
    · simp only [Register, Function.update_noteq hqp] at hq
      exact ih q p' hq
  | setCacheTTL d _ ih => exact ih
  | clearCache _ ih => exact ih
  | loadSecret ctx ref now₁ now₂ _ ih =>
    intro q p hq
    rw [(LoadSecret_frame ctx ref now₁ now₂ _).1] at hq
    exact ih q p hq
  | loadRandomSecret ctx refs rnd now₁ now₂ r _ hr ih =>
    rcases LoadRandomSecret_cases hr with h1 | ⟨ref, _, h1⟩
    · rw [h1]; exact ih
    · intro q p hq
      rw [h1, (LoadSecret_frame ctx ref now₁ now₂ _).1] at hq
      exact ih q p hq
  | world w _ ih => exact ih

theorem Reachable.cacheProvenance {s : State Ctx W} (h : Reachable s) : CacheProvenance s := by
  induction h with
  | init w =>
    intro k c hk
    cases hk
  | register p _ ih => exact ih
  | setCacheTTL d _ ih => exact ih
  | clearCache _ ih =>
    intro k c hk
    cases hk
  | loadSecret ctx ref now₁ now₂ hs ih =>
    exact CacheProvenance_LoadSecret ctx ref now₁ now₂ hs.registryKeyed ih
  | loadRandomSecret ctx refs rnd now₁ now₂ r hs hr ih =>
    rcases LoadRandomSecret_cases hr with h1 | ⟨ref, _, h1⟩
    · rw [h1]; exact ih
    · rw [h1]
      exact CacheProvenance_LoadSecret ctx ref now₁ now₂ hs.registryKeyed ih
  | world w _ ih => exact ih

/-- C17: the invariant of the cache in the reachable states.  Every key of the
cache contains `':'`, is of the form `pfx:id` with `pfx` (the text before the
first `':'`) currently registered, and passes `ValidateSecret`; and the cached
value is the value of a successful `Load` of `id` by a plugin that reports the
prefix `pfx` and that was invoked with `id`. -/
theorem cache_keys_valid (s : State Ctx W) (hR : Reachable s) (k : String) (c : cachedSecret)
    (hk : s.secretCache k = some c) :
    ValidateSecret s k = none ∧ ':' ∈ k.data ∧
      ∃ pfx id, ':' ∉ pfx.data ∧ k = pfx ++ ":" ++ id ∧ (s.registry pfx).isSome ∧
        ∃ p ctx w, p.Prefix = pfx ∧ (⟨p, ctx, id⟩ : Call Ctx W) ∈ s.calls ∧
          (p.Load ctx id w).1 = (c.val, none) := by
  have hv := hR.cacheValid k c hk
  obtain ⟨pfx', id', p, ctx, w, hs', hp, hcall, hload⟩ := hR.cacheProvenance k c hk
  rcases SplitN2_cases k with ⟨_, hs⟩ | ⟨pfx, id, hpfx, hkeq, hs⟩
  · rw [ValidateSecret_of_single hs] at hv
    cases hv
  · have hmem : ':' ∈ k.data := by
      rw [hkeq]
      simp [String.data_append]
    refine ⟨hv, hmem, pfx, id, hpfx, hkeq, ?_, ?_⟩
    · rw [ValidateSecret_of_split hs] at hv
      cases hr : s.registry pfx with
      | none => simp [hr] at hv
      | some q => rfl
    · rw [hs] at hs'
      have h1 : pfx = pfx' := by
        have := List.cons.inj hs'
        exact this.1
      have h2 : id = id' := by
        have := List.cons.inj (List.cons.inj hs').2
        exact this.1
      subst h1
      subst h2
      exact ⟨p, ctx, w, hp, hcall, hload⟩

/-- C17 at the entry of `env:a` after it was loaded in `sampleState`. -/
theorem cache_keys_valid_witness :
    ValidateSecret (LoadSecret () "env:a" 100 100 sampleState).2 "env:a" = none ∧
      ':' ∈ "env:a".data ∧
      ∃ pfx id, ':' ∉ pfx.data ∧ "env:a" = pfx ++ ":" ++ id ∧
        ((LoadSecret () "env:a" 100 100 sampleState).2.registry pfx).isSome ∧
        ∃ p ctx w, p.Prefix = pfx ∧
          (⟨p, ctx, id⟩ : Call Unit Nat) ∈ (LoadSecret () "env:a" 100 100 sampleState).2.calls ∧
          (p.Load ctx id w).1 = ((⟨"v0", zeroTime⟩ : cachedSecret).val, none) :=
  cache_keys_valid (LoadSecret () "env:a" 100 100 sampleState).2
    (Reachable.loadSecret () "env:a" 100 100
      (Reachable.register vaultPlugin (Reachable.register envPlugin (Reachable.init 0))))
    "env:a" ⟨"v0", zeroTime⟩ rfl

/-! ## The TTL window -/

theorem LoadSecretRun_hits {s : State Ctx W} {ref v : String}
    (run : List (Ctx × Time × Time))
    (h : ∀ c ∈ run, cacheHit s ref c.2.1 = some v) :
    LoadSecretRun ref run s = (run.map (fun _ => (v, none)), s) := by
  induction run with
  | nil => rfl
  | cons c rest ih =>
    have hc := h c (List.mem_cons_self _ _)
    have hrest : ∀ c' ∈ rest, cacheHit s ref c'.2.1 = some v :=
      fun c' hc' => h c' (List.mem_cons_of_mem _ hc')
    simp only [LoadSecretRun, LoadSecret_hit c.1 c.2.2 hc, ih hrest, List.map_cons]

/-- C19: a cache hit changes nothing, so the TTL is a fixed window.  Whenever
`LoadSecret` answers from the cache the whole state is the same before and
after.  Hence, with `CacheTTL = d > 0` and an entry filled at clock reading
`t0`: the entry is live at exactly the times `t < t0 + d`; any run of calls at
such times returns the cached value each time and leaves the state as the fill
left it; and after any such run, the first call at a time `t ≥ t0 + d` invokes
the plugin again. -/
theorem fixed_ttl_window (s : State Ctx W) (ctx₀ : Ctx) (ref pfx id v₀ : String)
    (p : Plugin Ctx W) (t0c t0 : Time)
    (hd : 0 < s.CacheTTL)
    (hcold : cacheHit s ref t0c = none)
    (hs : SplitN2 ref = [pfx, id]) (hr : s.registry pfx = some p)
    (hl : (p.Load ctx₀ id s.world).1 = (v₀, none)) :
    (∀ (s' : State Ctx W) (ctx : Ctx) (ref' v' : String) (t t' : Time),
        cacheHit s' ref' t = some v' → LoadSecret ctx ref' t t' s' = ((v', none), s')) ∧
      (∀ t, t < t0 + s.CacheTTL →
        cacheHit (LoadSecret ctx₀ ref t0c t0 s).2 ref t = some v₀) ∧
      (∀ t, t0 + s.CacheTTL ≤ t →
        cacheHit (LoadSecret ctx₀ ref t0c t0 s).2 ref t = none) ∧
      (∀ run : List (Ctx × Time × Time), (∀ c ∈ run, c.2.1 < t0 + s.CacheTTL) →
        LoadSecretRun ref run (LoadSecret ctx₀ ref t0c t0 s).2
          = (run.map (fun _ => (v₀, none)), (LoadSecret ctx₀ ref t0c t0 s).2)) ∧
      (∀ (run : List (Ctx × Time × Time)) (ctx : Ctx) (t t' : Time),
        (∀ c ∈ run, c.2.1 < t0 + s.CacheTTL) → t0 + s.CacheTTL ≤ t →
        (LoadSecret ctx ref t t'
            (LoadSecretRun ref run (LoadSecret ctx₀ ref t0c t0 s).2).2).2.calls
          = (LoadSecret ctx₀ ref t0c t0 s).2.calls ++ [⟨p, ctx, id⟩]) := by
  have hl2 : (p.Load ctx₀ id s.world).1.2 = none := by rw [hl]
  have hl1 : (p.Load ctx₀ id s.world).1.1 = v₀ := by rw [hl]
  have hnd : ¬ s.CacheTTL ≤ 0 := not_le.mpr hd
  have hgt : s.CacheTTL > 0 := hd
  have httl : (LoadSecret ctx₀ ref t0c t0 s).2.CacheTTL = s.CacheTTL :=
    (LoadSecret_frame ctx₀ ref t0c t0 s).2
  have hr1 : (LoadSecret ctx₀ ref t0c t0 s).2.registry pfx = some p := by
    rw [(LoadSecret_frame ctx₀ ref t0c t0 s).1, hr]
  have hentry : (LoadSecret ctx₀ ref t0c t0 s).2.secretCache ref
      = some ⟨v₀, t0 + s.CacheTTL⟩ := by
    rw [LoadSecret_fill t0 hcold hs hr hl2, hl1]
    simp [hgt, Add]
  have hlive : ∀ t, t < t0 + s.CacheTTL →
      cacheHit (LoadSecret ctx₀ ref t0c t0 s).2 ref t = some v₀ := by
    intro t ht
    simp [cacheHit, hentry, httl, hnd, Before, ht]
  have hdead : ∀ t, t0 + s.CacheTTL ≤ t →
      cacheHit (LoadSecret ctx₀ ref t0c t0 s).2 ref t = none := by
    intro t ht
    have hnb : ¬ t < t0 + s.CacheTTL := not_lt.mpr ht
    simp [cacheHit, hentry, httl, hnd, Before, hnb]
  have hrun : ∀ run : List (Ctx × Time × Time), (∀ c ∈ run, c.2.1 < t0 + s.CacheTTL) →
      LoadSecretRun ref run (LoadSecret ctx₀ ref t0c t0 s).2
        = (run.map (fun _ => (v₀, none)), (LoadSecret ctx₀ ref t0c t0 s).2) :=
    fun run h => LoadSecretRun_hits run (fun c hc => hlive c.2.1 (h c hc))
  refine ⟨fun s' ctx ref' v' t t' h => LoadSecret_hit ctx t' h, hlive, hdead, hrun, ?_⟩
  intro run ctx t t' hbefore ht
  rw [hrun run hbefore]
  have hmiss := hdead t ht
  cases hl' : (p.Load ctx id (LoadSecret ctx₀ ref t0c t0 s).2.world).1.2 with
  | none => rw [LoadSecret_fill t' hmiss hs hr1 hl']
  | some e => rw [LoadSecret_fail t' hmiss hs hr1 hl']

/-- C19 at `env:a` with `CacheTTL = 5`, filled at `100`: three hits at `101`,
`104`, `102` change nothing, and the call at `105` reloads. -/
theorem fixed_ttl_window_witness :
    LoadSecretRun "env:a" [((), 101, 101), ((), 104, 104), ((), 102, 102)]
        (LoadSecret () "env:a" 100 100 (SetCacheTTL 5 sampleState)).2
      = ([("v0", none), ("v0", none), ("v0", none)],
          (LoadSecret () "env:a" 100 100 (SetCacheTTL 5 sampleState)).2) ∧
      (LoadSecret () "env:a" 105 105
          (LoadSecretRun "env:a" [((), 101, 101), ((), 104, 104), ((), 102, 102)]
            (LoadSecret () "env:a" 100 100 (SetCacheTTL 5 sampleState)).2).2).2.calls
        = (LoadSecret () "env:a" 100 100 (SetCacheTTL 5 sampleState)).2.calls
            ++ [⟨envPlugin, (), "a"⟩] :=
  have h := fixed_ttl_window (SetCacheTTL 5 sampleState) () "env:a" "env" "a" "v0" envPlugin
    100 100 (by decide) rfl rfl rfl rfl
  ⟨h.2.2.2.1 [((), 101, 101), ((), 104, 104), ((), 102, 102)] (by decide),
    h.2.2.2.2 [((), 101, 101), ((), 104, 104), ((), 102, 102)] () 105 105 (by decide)
      (by decide)⟩

end secrets
